import Mathlib

/-!
Verification of the workflow engine (`backend/app/services/workflow_engine.py`).

The engine's data model and operations are embedded shallowly:

* Python dicts that serve as records (`Node`, `Edge`, the node `data` payload,
  node `config`, `NodeResult`, validation and execution results) become Lean
  structures whose fields are `Option`-valued exactly where the code reads
  them with `dict.get` and may find them absent.
* `context["results"]` is an insertion-ordered dictionary (Python `dict`):
  it is modelled as an association list with in-place replacement on
  re-assignment, preserving iteration order.
* The two external collaborators (completion generation and vector
  retrieval) are passed in as function parameters of type
  `CompletionArgs → Except String String` and
  `RetrievalArgs → Except String SearchResults`; a raising Python call is an
  `Except.error`.
* `asyncio.gather` over one wave evaluates every handler against the
  pre-wave context and merges results afterwards, which is exactly what the
  code observes: `context["results"]` is only mutated after `gather`
  returns.
* The unbounded `while` loop of `execute_workflow` is run with fuel
  `len(nodes)`; the theorem for the termination claim proves this fuel is
  always enough (adding fuel never changes the result).
* Wall-clock timestamps (`datetime.utcnow`) and the floating-point
  retrieval scores / temperature parameters are outside the embedding; no
  claim mentions them.
-/

set_option autoImplicit false

namespace GenaiStack

/-- The enum `ComponentType`: the closed set of node kinds. -/
def validTypes : List String :=
  ["user_query", "knowledge_base", "llm_engine", "output", "web_search"]

/-- The node-level `config` dict, with the keys the engine reads.
`temperature` and `maxTokens` (floating point / unread by any claim) are omitted. -/
structure NodeConfig where
  apiKey : Option String := none
  prompt : Option String := none
  model : Option String := none
  topK : Option Nat := none
  embeddingProvider : Option String := none
  systemPrompt : Option String := none
  deriving DecidableEq, Repr

/-- The `data` payload of a node (`node.get("data", {})`). -/
structure NodeData where
  type : Option String := none
  config : NodeConfig := {}
  deriving DecidableEq, Repr

/-- A workflow node. `id` is a string (the spec requires unique string ids);
`type` may be absent (`node.get("type")`). -/
structure Node where
  id : String
  type : Option String := none
  data : NodeData := {}
  deriving DecidableEq, Repr

/-- An edge: `target` depends on `source`. -/
structure Edge where
  source : String
  target : String
  deriving DecidableEq, Repr

/-- A workflow configuration (`workflow_config` dict). -/
structure WorkflowConfig where
  nodes : List Node := []
  edges : List Edge := []
  deriving DecidableEq, Repr

/-- Result of `validate_workflow`. -/
structure ValidationResult where
  valid : Bool
  errors : List String
  warnings : List String
  deriving DecidableEq, Repr

/-- Python string interpolation of an `Optional[str]` (f-strings print `None`). -/
def fmtOpt : Option String → String
  | none => "None"
  | some s => s

/-- Python truthiness of an optional string: `None` and `""` are falsy. -/
def strTruthy : Option String → Bool
  | none => false
  | some s => !s.isEmpty

/-- `"pat" in s` for Python strings (non-empty pattern). -/
def strContains (s pat : String) : Bool :=
  (s.splitOn pat).length != 1

/-- The effective node type used both by the validator's per-node type check
(lines 48–51) and by dispatch (lines 226–228): unwrap `data.type` only when
the top-level type is the generic `"custom"` wrapper. -/
def effective_type (n : Node) : Option String :=
  if n.type == some "custom" then n.data.type else n.type

/-- Membership of an effective type in the valid set (`node_type in valid_types`;
`None` is never a member). -/
def isValidType : Option String → Bool
  | none => false
  | some s => validTypes.contains s

/-- The validator's `has_input` test for one node: checks **both** the
top-level type and `data.type`, with no `"custom"` unwrapping (lines 57–61). -/
def isUserQueryNode (n : Node) : Bool :=
  n.type == some "user_query" || n.data.type == some "user_query"

/-- The validator's `has_output` test for one node (lines 62–66); the same
both-markers test selects output nodes at the end of `execute_workflow`. -/
def isOutputNode (n : Node) : Bool :=
  n.type == some "output" || n.data.type == some "output"

/-- The `llm_nodes` selection (lines 82–86). -/
def isLLMNode (n : Node) : Bool :=
  n.type == some "llm_engine" || n.data.type == some "llm_engine"

/-- Error emitted when the node list is empty (line 41–42). -/
def empty_errors (nodes : List Node) : List String :=
  if nodes.isEmpty then ["Workflow must have at least one node"] else []

/-- Per-node invalid-type errors, in node order (lines 46–54). -/
def type_errors (nodes : List Node) : List String :=
  nodes.filterMap fun n =>
    if isValidType (effective_type n) then none
    else some ("Invalid node type: " ++ fmtOpt (effective_type n))

/-- Missing User Query error (lines 68–69). -/
def input_errors (nodes : List Node) : List String :=
  if nodes.any isUserQueryNode then []
  else ["Workflow must have at least one User Query node"]

/-- Missing Output error (lines 70–71). -/
def output_errors (nodes : List Node) : List String :=
  if nodes.any isOutputNode then []
  else ["Workflow must have at least one Output node"]

/-- Per-edge unknown-endpoint errors, in edge order, source before target
(lines 74–79). -/
def edge_errors (nodes : List Node) (edges : List Edge) : List String :=
  let node_ids := nodes.map Node.id
  edges.flatMap fun e =>
    (if node_ids.contains e.source then []
     else ["Invalid edge source: " ++ e.source]) ++
    (if node_ids.contains e.target then []
     else ["Invalid edge target: " ++ e.target])

/-- Missing-API-key warnings for llm nodes (lines 87–90). -/
def llm_warnings (nodes : List Node) : List String :=
  (nodes.filter isLLMNode).filterMap fun n =>
    if strTruthy n.data.config.apiKey then none
    else some ("LLM node " ++ n.id ++ " missing API key")

/-- `WorkflowEngine.validate_workflow` (lines 31–96).  The method reads no
engine state (no `self` attribute), so its embedding is a pure function of
the configuration alone. -/
def validate_workflow (cfg : WorkflowConfig) : ValidationResult :=
  let errors := empty_errors cfg.nodes ++ type_errors cfg.nodes ++
    input_errors cfg.nodes ++ output_errors cfg.nodes ++
    edge_errors cfg.nodes cfg.edges
  { valid := errors.isEmpty
    errors := errors
    warnings := llm_warnings cfg.nodes }

/-! ## Insertion-ordered dictionaries (Python `dict`) -/

/-- Assignment `m[k] = v`: replace in place if the key exists (keeping its
position), append otherwise. -/
def dictInsert {α : Type} : List (String × α) → String → α → List (String × α)
  | [], k, v => [(k, v)]
  | (k', v') :: rest, k, v =>
    if k' = k then (k, v) :: rest else (k', v') :: dictInsert rest k v

/-- `m.get(k)` / `k in m`. -/
def dictGet? {α : Type} : List (String × α) → String → Option α
  | [], _ => none
  | (k', v) :: rest, k => if k' = k then some v else dictGet? rest k

/-- Iteration order of `m.values()`. -/
def dictValues {α : Type} (m : List (String × α)) : List α := m.map Prod.snd

/-- Iteration order of `m.keys()`. -/
def dictKeys {α : Type} (m : List (String × α)) : List String := m.map Prod.fst

/-! ## Execution data model -/

/-- A node result dict.  Every handler result and the error record are values
of this shape; a field is `none` / `[]` when the corresponding key is absent
from the Python dict.  (`timestamp`, `relevance_scores` and `metadata` —
wall clock and floating point — are omitted; no claim reads them.) -/
structure NodeResult where
  type : Option String := none
  content : Option String := none
  documents : List String := []
  results : List String := []
  query : Option String := none
  message : Option String := none
  model : Option String := none
  error : Option String := none
  deriving DecidableEq, Repr

/-- The execution context (`metadata` timestamps omitted). -/
structure Context where
  user_input : String
  session_id : Option String := none
  results : List (String × NodeResult) := []
  deriving DecidableEq, Repr

/-- `LLMProvider` enum of the completion collaborator. -/
inductive LLMProvider where
  | openai
  | gemini
  deriving DecidableEq, Repr

/-- Arguments handed to `llm_service.generate_completion` (`temperature` and
`max_tokens`, floating point and unread by any claim, are omitted). -/
structure CompletionArgs where
  prompt : String
  provider : LLMProvider
  model : Option String := none
  system_prompt : Option String := none
  api_key : Option String := none
  deriving DecidableEq, Repr

/-- Arguments handed to `vector_store_service.search_by_text`. -/
structure RetrievalArgs where
  query_text : String
  n_results : Nat
  provider : String
  deriving DecidableEq, Repr

/-- Payload returned by the retrieval collaborator (scores/metadata omitted). -/
structure SearchResults where
  documents : List String := []
  deriving DecidableEq, Repr

/-- The two external collaborators of the engine. -/
structure Collaborators where
  completion : CompletionArgs → Except String String
  retrieval : RetrievalArgs → Except String SearchResults

/-! ## Node handlers -/

/-- `_execute_user_query` (lines 256–267). -/
def execute_user_query (ctx : Context) : Except String NodeResult :=
  .ok { type := some "user_query", content := some ctx.user_input }

/-- `_execute_knowledge_base` (lines 269–291): a collaborator error makes the
handler fail. -/
def execute_knowledge_base (C : Collaborators) (node : Node) (ctx : Context) :
    Except String NodeResult :=
  let config := node.data.config
  let args : RetrievalArgs :=
    { query_text := ctx.user_input
      n_results := config.topK.getD 5
      provider := config.embeddingProvider.getD "openai" }
  match C.retrieval args with
  | .error e => .error e
  | .ok sr => .ok { type := some "knowledge_base", documents := sr.documents }

/-- The prompt built by `_execute_llm_engine` (lines 302–318): start from the
user input, prepend a context block from the first `knowledge_base`-typed
result when it has documents, then apply a truthy `prompt` template. -/
def llm_prompt (node : Node) (ctx : Context) : String :=
  let config := node.data.config
  let prompt := ctx.user_input
  let kb_results := (dictValues ctx.results).find? fun r =>
    r.type == some "knowledge_base"
  let prompt :=
    match kb_results with
    | some kb =>
      if kb.documents.isEmpty then prompt
      else
        "Context:\n" ++ String.intercalate "\n\n" (kb.documents.take 3) ++
          "\n\nQuestion: " ++ prompt
    | none => prompt
  match config.prompt with
  | some p => if p.isEmpty then prompt else p.replace "{query}" prompt
  | none => prompt

/-- Provider selection of `_execute_llm_engine` (lines 320–324). -/
def llm_provider_of (node : Node) : LLMProvider :=
  let model_name := (node.data.config.model.getD "").toLower
  if strContains model_name "gemini" then .gemini else .openai

/-- `_execute_llm_engine` (lines 293–342). -/
def execute_llm_engine (C : Collaborators) (node : Node) (ctx : Context) :
    Except String NodeResult :=
  let config := node.data.config
  let args : CompletionArgs :=
    { prompt := llm_prompt node ctx
      provider := llm_provider_of node
      model := config.model
      system_prompt := config.systemPrompt
      api_key := config.apiKey }
  match C.completion args with
  | .error e => .error e
  | .ok response =>
    .ok { type := some "llm_response", content := some response,
          model := config.model }

/-- `_execute_web_search` (lines 344–358): a stub, never fails. -/
def execute_web_search (ctx : Context) : Except String NodeResult :=
  .ok { type := some "web_search", results := [],
        query := some ctx.user_input,
        message := some "Web search integration coming soon" }

/-- `_execute_output` (lines 360–378): joins the contents of all
`llm_response`-typed results, never fails.  (The `node` parameter of the
Python method is unused and dropped here.) -/
def execute_output (ctx : Context) : Except String NodeResult :=
  let output_content := (dictValues ctx.results).filterMap fun r =>
    if r.type == some "llm_response" then some (r.content.getD "") else none
  .ok { type := some "output",
        content := some (if output_content.isEmpty then "No output generated"
          else String.intercalate "\n\n" output_content) }

/-- `_execute_node` (lines 218–254): dispatch on the effective type; an
unknown type raises. -/
def execute_node (C : Collaborators) (node : Node) (ctx : Context) :
    Except String NodeResult :=
  match effective_type node with
  | some "user_query" => execute_user_query ctx
  | some "knowledge_base" => execute_knowledge_base C node ctx
  | some "llm_engine" => execute_llm_engine C node ctx
  | some "web_search" => execute_web_search ctx
  | some "output" => execute_output ctx
  | t => .error ("Unknown node type: " ++ fmtOpt t)

/-! ## Execution graph and wave loop -/

/-- One entry of the execution graph (lines 199–205). -/
structure GraphEntry where
  node : Node
  dependencies : List String := []
  dependents : List String := []
  deriving DecidableEq, Repr

/-- Processing of a single edge in `_build_execution_graph` (lines 208–214):
ignored unless both endpoints are known, otherwise append to the target's
dependencies and then to the source's dependents. -/
def graph_add_edge (g : List (String × GraphEntry)) (e : Edge) :
    List (String × GraphEntry) :=
  if (dictGet? g e.source).isSome && (dictGet? g e.target).isSome then
    let g1 :=
      match dictGet? g e.target with
      | some te =>
        dictInsert g e.target { te with dependencies := te.dependencies ++ [e.source] }
      | none => g
    match dictGet? g1 e.source with
    | some se =>
      dictInsert g1 e.source { se with dependents := se.dependents ++ [e.target] }
    | none => g1
  else g

/-- `_build_execution_graph` (lines 189–216). -/
def build_execution_graph (nodes : List Node) (edges : List Edge) :
    List (String × GraphEntry) :=
  let graph := nodes.foldl (fun g n => dictInsert g n.id { node := n }) []
  edges.foldl graph_add_edge graph

/-- `graph.get(node_id, {}).get("dependencies", [])` (line 140). -/
def node_dependencies (graph : List (String × GraphEntry)) (node_id : String) :
    List String :=
  match dictGet? graph node_id with
  | some entry => entry.dependencies
  | none => []

/-- `set.add` on the executed set, realised as a duplicate-free list. -/
def insertNew (s : List String) (x : String) : List String :=
  if x ∈ s then s else s ++ [x]

/-- The ready computation of one loop iteration (lines 133–142). -/
def ready_nodes (nodes : List Node) (graph : List (String × GraphEntry))
    (executed : List String) : List Node :=
  nodes.filter fun n =>
    !(executed.contains n.id) &&
      (node_dependencies graph n.id).all executed.contains

/-- What gets stored for one finished node (lines 155–161): its result on
success, the record `{"error": message}` on failure. -/
def outcome_record (C : Collaborators) (node : Node) (ctx : Context) : NodeResult :=
  match execute_node C node ctx with
  | .ok r => r
  | .error e => { error := some e }

/-- The store loop of one wave (lines 154–162): each outcome — computed
against the fixed pre-wave context `ctx0` — is stored under its node's id and
the node marked executed. -/
def wave_fold (C : Collaborators) (ctx0 : Context) (ready : List Node)
    (acc : List String × Context) : List String × Context :=
  ready.foldl
    (fun acc node =>
      (insertNew acc.1 node.id,
       { acc.2 with
         results := dictInsert acc.2.results node.id (outcome_record C node ctx0) }))
    acc

/-- One wave (lines 147–162): every ready node's handler is evaluated against
the pre-wave context (`asyncio.gather` returns before any store), then the
outcomes are merged. -/
def exec_wave (C : Collaborators) (ready : List Node)
    (st : List String × Context) : List String × Context :=
  wave_fold C st.2 ready st

/-- The `while` loop of `execute_workflow` (lines 129–162), with explicit
fuel; `execute_workflow` runs it with fuel `len(nodes)`, which the
termination theorem shows is always enough. -/
def exec_loop (C : Collaborators) (nodes : List Node)
    (graph : List (String × GraphEntry)) :
    Nat → List String × Context → List String × Context
  | 0, st => st
  | fuel + 1, st =>
    if st.1.length < nodes.length then
      let ready := ready_nodes nodes graph st.1
      if ready.isEmpty then st
      else exec_loop C nodes graph fuel (exec_wave C ready st)
    else st

/-- `execution_summary.errors` (line 185): results having an `"error"` key. -/
def count_errors (results : List (String × NodeResult)) : Nat :=
  ((dictValues results).filter fun r => r.error.isSome).length

/-- The `execution_summary` dict (lines 182–186). -/
structure ExecutionSummary where
  total_nodes : Nat
  executed_nodes : Nat
  errors : Nat
  deriving DecidableEq, Repr

/-- The value returned by `execute_workflow` (lines 179–187). -/
structure ExecResult where
  output : List NodeResult
  context : Context
  execution_summary : ExecutionSummary
  deriving DecidableEq, Repr

/-- Python `repr` of a list of strings, as interpolated into the
`ValueError` message of line 109. -/
def pyListRepr (xs : List String) : String :=
  "[" ++ String.intercalate ", " (xs.map fun s => "'" ++ s ++ "'") ++ "]"

/-- The message of the `ValueError` raised on failed validation (line 109). -/
def invalid_workflow_message (errors : List String) : String :=
  "Invalid workflow: " ++ pyListRepr errors

/-- The execution context as initialized in lines 118–126. -/
def initial_context (user_input : String) (session_id : Option String) : Context :=
  { user_input := user_input, session_id := session_id, results := [] }

/-- The state of the wave loop after at most `i` iterations of a run. -/
def loop_state (C : Collaborators) (cfg : WorkflowConfig) (user_input : String)
    (session_id : Option String) (i : Nat) : List String × Context :=
  exec_loop C cfg.nodes (build_execution_graph cfg.nodes cfg.edges) i
    ([], initial_context user_input session_id)

/-- The state of the wave loop when it finishes (executed ids and context);
fuel `len(nodes)` always suffices, see the termination theorem. -/
def final_state (C : Collaborators) (cfg : WorkflowConfig) (user_input : String)
    (session_id : Option String) : List String × Context :=
  loop_state C cfg user_input session_id cfg.nodes.length

/-- `WorkflowEngine.execute_workflow` (lines 98–187). -/
def execute_workflow (C : Collaborators) (cfg : WorkflowConfig)
    (user_input : String) (session_id : Option String) :
    Except String ExecResult :=
  let validation := validate_workflow cfg
  if !validation.valid then
    .error (invalid_workflow_message validation.errors)
  else
    let st := final_state C cfg user_input session_id
    let output_nodes := cfg.nodes.filter isOutputNode
    let final_output := output_nodes.filterMap fun n => dictGet? st.2.results n.id
    .ok { output := final_output
          context := st.2
          execution_summary :=
            { total_nodes := cfg.nodes.length
              executed_nodes := st.1.length
              errors := count_errors st.2.results } }

/-! ## Dictionary and set lemmas -/

theorem dictGet?_dictInsert_self {α : Type} (m : List (String × α)) (k : String)
    (v : α) : dictGet? (dictInsert m k v) k = some v := by
  induction m with
  | nil => simp [dictInsert, dictGet?]
  | cons p rest ih =>
    by_cases h : p.1 = k <;> simp [dictInsert, dictGet?, h, ih]

theorem dictGet?_dictInsert_ne {α : Type} (m : List (String × α)) (k k' : String)
    (v : α) (h : k' ≠ k) : dictGet? (dictInsert m k v) k' = dictGet? m k' := by
  induction m with
  | nil => simp [dictInsert, dictGet?, Ne.symm h]
  | cons p rest ih =>
    obtain ⟨k1, v1⟩ := p
    by_cases hp : k1 = k
    · subst hp
      simp [dictInsert, dictGet?, Ne.symm h]
    · simp [dictInsert, dictGet?, hp, ih]

theorem isSome_dictGet?_dictInsert {α : Type} (m : List (String × α))
    (k k' : String) (v : α) :
    (dictGet? (dictInsert m k v) k').isSome ↔ k' = k ∨ (dictGet? m k').isSome := by
  by_cases h : k' = k
  · subst h; simp [dictGet?_dictInsert_self]
  · simp [dictGet?_dictInsert_ne m k k' v h, h]

theorem mem_dictKeys_iff_isSome {α : Type} (m : List (String × α)) (k : String) :
    k ∈ dictKeys m ↔ (dictGet? m k).isSome := by
  induction m with
  | nil => simp [dictKeys, dictGet?]
  | cons p rest ih =>
    obtain ⟨k1, v1⟩ := p
    by_cases h : k1 = k
    · subst h; simp [dictKeys, dictGet?]
    · have hk : dictKeys ((k1, v1) :: rest) = k1 :: dictKeys rest := rfl
      have hg : dictGet? ((k1, v1) :: rest) k = dictGet? rest k := by
        simp [dictGet?, h]
      rw [hk, List.mem_cons, ih, hg]
      simp [Ne.symm h]

theorem dictKeys_dictInsert_of_mem {α : Type} (m : List (String × α))
    (k : String) (v : α) (h : k ∈ dictKeys m) :
    dictKeys (dictInsert m k v) = dictKeys m := by
  induction m with
  | nil => simp [dictKeys] at h
  | cons p rest ih =>
    obtain ⟨k1, v1⟩ := p
    by_cases hp : k1 = k
    · subst hp; simp [dictInsert, dictKeys]
    · have h' : k ∈ dictKeys rest := by
        rcases (by simpa [dictKeys] using h : k = k1 ∨ k ∈ dictKeys rest) with e | h'
        · exact absurd e.symm hp
        · exact h'
      have hrest := ih h'
      simp only [dictKeys] at hrest ⊢
      simp [dictInsert, hp, hrest]

theorem mem_insertNew (s : List String) (x y : String) :
    y ∈ insertNew s x ↔ y = x ∨ y ∈ s := by
  by_cases h : x ∈ s
  · simp only [insertNew, if_pos h]
    exact ⟨Or.inr, fun hy => hy.elim (fun e => e ▸ h) id⟩
  · simp [insertNew, h, List.mem_append, or_comm]

theorem length_le_insertNew (s : List String) (x : String) :
    s.length ≤ (insertNew s x).length := by
  by_cases h : x ∈ s <;> simp [insertNew, h]

theorem length_insertNew_of_not_mem (s : List String) (x : String) (h : x ∉ s) :
    (insertNew s x).length = s.length + 1 := by
  simp [insertNew, h]

theorem nodup_insertNew (s : List String) (x : String) (h : s.Nodup) :
    (insertNew s x).Nodup := by
  by_cases hc : x ∈ s
  · simpa [insertNew, hc] using h
  · simp [insertNew, hc, List.nodup_append, h]

/-! ## Wave lemmas -/

theorem wave_fold_cons (C : Collaborators) (ctx0 : Context) (n : Node)
    (ready : List Node) (acc : List String × Context) :
    wave_fold C ctx0 (n :: ready) acc =
      wave_fold C ctx0 ready
        (insertNew acc.1 n.id,
         { acc.2 with
           results := dictInsert acc.2.results n.id (outcome_record C n ctx0) }) := rfl

theorem mem_wave_fold_fst (C : Collaborators) (ctx0 : Context) (ready : List Node)
    (acc : List String × Context) (x : String) :
    x ∈ (wave_fold C ctx0 ready acc).1 ↔ x ∈ acc.1 ∨ x ∈ ready.map Node.id := by
  induction ready generalizing acc with
  | nil => simp [wave_fold]
  | cons n rest ih =>
    rw [wave_fold_cons, ih]
    simp [mem_insertNew]
    tauto

theorem dictGet?_wave_fold_not_mem (C : Collaborators) (ctx0 : Context)
    (ready : List Node) (acc : List String × Context) (x : String)
    (h : x ∉ ready.map Node.id) :
    dictGet? (wave_fold C ctx0 ready acc).2.results x = dictGet? acc.2.results x := by
  induction ready generalizing acc with
  | nil => rfl
  | cons n rest ih =>
    simp only [List.map_cons, List.mem_cons] at h
    push_neg at h
    rw [wave_fold_cons, ih _ h.2]
    simp [dictGet?_dictInsert_ne _ _ _ _ h.1]

theorem isSome_wave_fold (C : Collaborators) (ctx0 : Context) (ready : List Node)
    (acc : List String × Context) (x : String) :
    (dictGet? (wave_fold C ctx0 ready acc).2.results x).isSome ↔
      (dictGet? acc.2.results x).isSome ∨ x ∈ ready.map Node.id := by
  induction ready generalizing acc with
  | nil => simp [wave_fold]
  | cons n rest ih =>
    rw [wave_fold_cons, ih]
    simp [isSome_dictGet?_dictInsert]
    tauto

theorem dictGet?_wave_fold_mem (C : Collaborators) (ctx0 : Context)
    (ready : List Node) (acc : List String × Context)
    (hnd : (ready.map Node.id).Nodup) (n : Node) (hn : n ∈ ready) :
    dictGet? (wave_fold C ctx0 ready acc).2.results n.id =
      some (outcome_record C n ctx0) := by
  induction ready generalizing acc with
  | nil => cases hn
  | cons m rest ih =>
    rw [List.map_cons] at hnd
    have hnd' := List.nodup_cons.mp hnd
    rcases List.mem_cons.mp hn with rfl | hn'
    · rw [wave_fold_cons, dictGet?_wave_fold_not_mem _ _ _ _ _ hnd'.1]
      simp [dictGet?_dictInsert_self]
    · rw [wave_fold_cons]
      exact ih _ hnd'.2 hn'

theorem length_le_wave_fold (C : Collaborators) (ctx0 : Context) (ready : List Node)
    (acc : List String × Context) :
    acc.1.length ≤ (wave_fold C ctx0 ready acc).1.length := by
  induction ready generalizing acc with
  | nil => exact Nat.le_refl _
  | cons n rest ih =>
    rw [wave_fold_cons]
    refine Nat.le_trans ?_ (ih _)
    exact length_le_insertNew acc.1 n.id

theorem length_lt_wave_fold (C : Collaborators) (ctx0 : Context) (ready : List Node)
    (acc : List String × Context) (hne : ready ≠ [])
    (h : ∀ n ∈ ready, n.id ∉ acc.1) :
    acc.1.length < (wave_fold C ctx0 ready acc).1.length := by
  cases ready with
  | nil => exact absurd rfl hne
  | cons n rest =>
    rw [wave_fold_cons]
    have h1 : (insertNew acc.1 n.id).length = acc.1.length + 1 :=
      length_insertNew_of_not_mem _ _ (h n (List.mem_cons_self _ _))
    refine Nat.lt_of_lt_of_le ?_ (length_le_wave_fold C ctx0 rest _)
    show acc.1.length < (insertNew acc.1 n.id).length
    omega

theorem nodup_wave_fold (C : Collaborators) (ctx0 : Context) (ready : List Node)
    (acc : List String × Context) (h : acc.1.Nodup) :
    (wave_fold C ctx0 ready acc).1.Nodup := by
  induction ready generalizing acc with
  | nil => exact h
  | cons n rest ih =>
    rw [wave_fold_cons]
    exact ih _ (nodup_insertNew _ _ h)

/-! ## Ready-set and loop lemmas -/

theorem mem_ready_nodes (nodes : List Node) (graph : List (String × GraphEntry))
    (executed : List String) (n : Node) :
    n ∈ ready_nodes nodes graph executed ↔
      n ∈ nodes ∧ n.id ∉ executed ∧
        ∀ d ∈ node_dependencies graph n.id, d ∈ executed := by
  simp [ready_nodes, List.mem_filter, List.elem_iff, List.all_eq_true]

theorem exec_loop_succ (C : Collaborators) (nodes : List Node)
    (graph : List (String × GraphEntry)) (fuel : Nat) (st : List String × Context) :
    exec_loop C nodes graph (fuel + 1) st =
      if st.1.length < nodes.length then
        if (ready_nodes nodes graph st.1).isEmpty then st
        else exec_loop C nodes graph fuel
          (exec_wave C (ready_nodes nodes graph st.1) st)
      else st := rfl

theorem exec_loop_of_stopped (C : Collaborators) (nodes : List Node)
    (graph : List (String × GraphEntry)) (fuel : Nat) (st : List String × Context)
    (h : ¬ st.1.length < nodes.length ∨
      (ready_nodes nodes graph st.1).isEmpty = true) :
    exec_loop C nodes graph fuel st = st := by
  cases fuel with
  | zero => rfl
  | succ f =>
    rw [exec_loop_succ]
    rcases h with h | h
    · simp [h]
    · simp [h]

theorem mem_exec_wave_fst (C : Collaborators) (ready : List Node)
    (st : List String × Context) (x : String) :
    x ∈ (exec_wave C ready st).1 ↔ x ∈ st.1 ∨ x ∈ ready.map Node.id :=
  mem_wave_fold_fst C st.2 ready st x

theorem isSome_exec_wave (C : Collaborators) (ready : List Node)
    (st : List String × Context) (x : String) :
    (dictGet? (exec_wave C ready st).2.results x).isSome ↔
      (dictGet? st.2.results x).isSome ∨ x ∈ ready.map Node.id :=
  isSome_wave_fold C st.2 ready st x

/-- The executed set and the key set of `results` always coincide: a node id
is marked executed exactly when a result (or error record) is stored for it. -/
theorem exec_loop_results_inv (C : Collaborators) (nodes : List Node)
    (graph : List (String × GraphEntry)) (fuel : Nat) :
    ∀ st : List String × Context,
      (∀ x, x ∈ st.1 ↔ (dictGet? st.2.results x).isSome) →
      ∀ x, x ∈ (exec_loop C nodes graph fuel st).1 ↔
        (dictGet? (exec_loop C nodes graph fuel st).2.results x).isSome := by
  induction fuel with
  | zero => intro st h; exact h
  | succ f ih =>
    intro st h
    rw [exec_loop_succ]
    by_cases hg : st.1.length < nodes.length
    · by_cases hr : (ready_nodes nodes graph st.1).isEmpty
      · simpa [hg, hr] using h
      · simp only [if_pos hg, if_neg hr]
        refine ih _ ?_
        intro x
        rw [mem_exec_wave_fst, isSome_exec_wave, h x]
    · simpa [hg] using h

/-- Every executed id is the id of some declared node. -/
theorem exec_loop_subset_ids (C : Collaborators) (nodes : List Node)
    (graph : List (String × GraphEntry)) (fuel : Nat) :
    ∀ st : List String × Context,
      (∀ x ∈ st.1, x ∈ nodes.map Node.id) →
      ∀ x ∈ (exec_loop C nodes graph fuel st).1, x ∈ nodes.map Node.id := by
  induction fuel with
  | zero => intro st h; exact h
  | succ f ih =>
    intro st h
    rw [exec_loop_succ]
    by_cases hg : st.1.length < nodes.length
    · by_cases hr : (ready_nodes nodes graph st.1).isEmpty
      · simpa [hg, hr] using h
      · simp only [if_pos hg, if_neg hr]
        refine ih _ ?_
        intro x hx
        rcases (mem_exec_wave_fst C _ st x).mp hx with hx | hx
        · exact h x hx
        · rcases List.mem_map.mp hx with ⟨n, hn, rfl⟩
          exact List.mem_map_of_mem _
            ((mem_ready_nodes nodes graph st.1 n).mp hn).1
    · simpa [hg] using h

/-- The executed set stays duplicate-free. -/
theorem exec_loop_nodup (C : Collaborators) (nodes : List Node)
    (graph : List (String × GraphEntry)) (fuel : Nat) :
    ∀ st : List String × Context, st.1.Nodup →
      (exec_loop C nodes graph fuel st).1.Nodup := by
  induction fuel with
  | zero => intro st h; exact h
  | succ f ih =>
    intro st h
    rw [exec_loop_succ]
    by_cases hg : st.1.length < nodes.length
    · by_cases hr : (ready_nodes nodes graph st.1).isEmpty
      · simpa [hg, hr] using h
      · simp only [if_pos hg, if_neg hr]
        exact ih _ (nodup_wave_fold C st.2 _ st h)
    · simpa [hg] using h

/-- Executed ids are never removed. -/
theorem exec_loop_fst_mono (C : Collaborators) (nodes : List Node)
    (graph : List (String × GraphEntry)) (fuel : Nat) :
    ∀ st : List String × Context, ∀ x ∈ st.1,
      x ∈ (exec_loop C nodes graph fuel st).1 := by
  induction fuel with
  | zero => intro st x hx; exact hx
  | succ f ih =>
    intro st x hx
    rw [exec_loop_succ]
    by_cases hg : st.1.length < nodes.length
    · by_cases hr : (ready_nodes nodes graph st.1).isEmpty
      · simpa [hg, hr] using hx
      · simp only [if_pos hg, if_neg hr]
        exact ih _ x ((mem_exec_wave_fst C _ st x).mpr (Or.inl hx))
    · simpa [hg] using hx

/-- Once a node is executed, the result stored under its id never changes:
later waves only write ids that are not yet executed. -/
theorem exec_loop_persist (C : Collaborators) (nodes : List Node)
    (graph : List (String × GraphEntry)) (fuel : Nat) :
    ∀ st : List String × Context, ∀ x ∈ st.1,
      dictGet? (exec_loop C nodes graph fuel st).2.results x =
        dictGet? st.2.results x := by
  induction fuel with
  | zero => intro st x _; rfl
  | succ f ih =>
    intro st x hx
    rw [exec_loop_succ]
    by_cases hg : st.1.length < nodes.length
    · by_cases hr : (ready_nodes nodes graph st.1).isEmpty
      · simp [hg, hr]
      · simp only [if_pos hg, if_neg hr]
        have hnot : x ∉ (ready_nodes nodes graph st.1).map Node.id := by
          intro hmem
          rcases List.mem_map.mp hmem with ⟨n, hn, he⟩
          exact ((mem_ready_nodes nodes graph st.1 n).mp hn).2.1 (he ▸ hx)
        rw [ih _ x ((mem_exec_wave_fst C _ st x).mpr (Or.inl hx))]
        exact dictGet?_wave_fold_not_mem C st.2 _ st x hnot
    · simp [hg]

/-- Running the loop for `i + j` steps is running it for `i`, then `j`. -/
theorem exec_loop_add (C : Collaborators) (nodes : List Node)
    (graph : List (String × GraphEntry)) (j : Nat) :
    ∀ (i : Nat) (st : List String × Context),
      exec_loop C nodes graph (j + i) st =
        exec_loop C nodes graph j (exec_loop C nodes graph i st) := by
  intro i
  induction i with
  | zero => intro st; rfl
  | succ i ih =>
    intro st
    show exec_loop C nodes graph ((j + i) + 1) st = _
    rw [exec_loop_succ, exec_loop_succ]
    by_cases hg : st.1.length < nodes.length
    · by_cases hr : (ready_nodes nodes graph st.1).isEmpty
      · simp only [if_pos hg, if_pos hr]
        exact (exec_loop_of_stopped C nodes graph j st (Or.inr hr)).symm
      · simp only [if_pos hg, if_neg hr]
        exact ih _
    · simp only [if_neg hg]
      exact (exec_loop_of_stopped C nodes graph j st (Or.inl hg)).symm

/-- Fuel sufficiency: once the fuel covers the number of missing ids, extra
fuel never changes the loop's result (each productive iteration strictly
grows the executed set; otherwise the loop exits). -/
theorem exec_loop_fuel_sufficient (C : Collaborators) (nodes : List Node)
    (graph : List (String × GraphEntry)) :
    ∀ (f : Nat) (st : List String × Context) (k : Nat),
      nodes.length ≤ st.1.length + f →
      exec_loop C nodes graph (f + k) st = exec_loop C nodes graph f st := by
  intro f
  induction f with
  | zero =>
    intro st k h
    have hg : ¬ st.1.length < nodes.length := by omega
    rw [exec_loop_of_stopped C nodes graph _ st (Or.inl hg)]
    rfl
  | succ f ih =>
    intro st k h
    rw [show f + 1 + k = (f + k) + 1 by omega, exec_loop_succ, exec_loop_succ]
    by_cases hg : st.1.length < nodes.length
    · by_cases hr : (ready_nodes nodes graph st.1).isEmpty
      · simp [hg, hr]
      · simp only [if_pos hg, if_neg hr]
        refine ih _ k ?_
        have hne : ready_nodes nodes graph st.1 ≠ [] := by
          simpa [List.isEmpty_iff] using hr
        have hgrow : st.1.length <
            (exec_wave C (ready_nodes nodes graph st.1) st).1.length := by
          refine length_lt_wave_fold C st.2 _ st hne ?_
          intro n hn
          exact ((mem_ready_nodes nodes graph st.1 n).mp hn).2.1
        omega
    · simp [hg]

/-! ## Execution-graph lemmas -/

theorem mem_dictKeys_dictInsert {α : Type} (m : List (String × α)) (k : String)
    (v : α) (x : String) :
    x ∈ dictKeys (dictInsert m k v) ↔ x = k ∨ x ∈ dictKeys m := by
  rw [mem_dictKeys_iff_isSome, isSome_dictGet?_dictInsert, mem_dictKeys_iff_isSome]

theorem node_dependencies_of_get (g : List (String × GraphEntry)) (t : String)
    (entry : GraphEntry) (h : dictGet? g t = some entry) :
    node_dependencies g t = entry.dependencies := by
  simp [node_dependencies, h]

/-- Reduction of `graph_add_edge` when both endpoints are known. -/
theorem graph_add_edge_eq (g : List (String × GraphEntry)) (e : Edge)
    (te se : GraphEntry)
    (hs : (dictGet? g e.source).isSome = true)
    (hte : dictGet? g e.target = some te)
    (hse : dictGet? (dictInsert g e.target
      { te with dependencies := te.dependencies ++ [e.source] }) e.source = some se) :
    graph_add_edge g e =
      dictInsert
        (dictInsert g e.target
          { te with dependencies := te.dependencies ++ [e.source] })
        e.source { se with dependents := se.dependents ++ [e.target] } := by
  simp only [graph_add_edge, hs, hte, hse, Option.isSome_some, Bool.and_self,
    Bool.true_and, Bool.and_true, if_true]

/-- When an endpoint is unknown, the edge is silently ignored. -/
theorem graph_add_edge_skip (g : List (String × GraphEntry)) (e : Edge)
    (h : (dictGet? g e.source).isSome = false ∨
      (dictGet? g e.target).isSome = false) :
    graph_add_edge g e = g := by
  rcases h with h | h <;> simp [graph_add_edge, h]

theorem isSome_source_in_g1 (g : List (String × GraphEntry)) (e : Edge)
    (te : GraphEntry) (hs : (dictGet? g e.source).isSome = true)
    (hte : dictGet? g e.target = some te) :
    (dictGet? (dictInsert g e.target
      { te with dependencies := te.dependencies ++ [e.source] }) e.source).isSome = true := by
  rw [← mem_dictKeys_iff_isSome,
    dictKeys_dictInsert_of_mem g e.target _
      ((mem_dictKeys_iff_isSome g e.target).mpr (by simp [hte])),
    mem_dictKeys_iff_isSome]
  exact hs

theorem dictKeys_graph_add_edge (g : List (String × GraphEntry)) (e : Edge) :
    dictKeys (graph_add_edge g e) = dictKeys g := by
  by_cases hs : (dictGet? g e.source).isSome
  · by_cases ht : (dictGet? g e.target).isSome
    · obtain ⟨te, hte⟩ := Option.isSome_iff_exists.mp ht
      obtain ⟨se, hse⟩ := Option.isSome_iff_exists.mp (isSome_source_in_g1 g e te hs hte)
      rw [graph_add_edge_eq g e te se hs hte hse]
      have hk1 : dictKeys (dictInsert g e.target
          { te with dependencies := te.dependencies ++ [e.source] }) = dictKeys g :=
        dictKeys_dictInsert_of_mem g e.target _
          ((mem_dictKeys_iff_isSome g e.target).mpr ht)
      rw [dictKeys_dictInsert_of_mem _ _ _ (by
        rw [mem_dictKeys_iff_isSome]
        exact isSome_source_in_g1 g e te hs hte), hk1]
    · rw [graph_add_edge_skip g e (Or.inr (by simpa using ht))]
  · rw [graph_add_edge_skip g e (Or.inl (by simpa using hs))]

theorem mem_deps_graph_add_edge (g : List (String × GraphEntry)) (e : Edge)
    (s t : String) (h : s ∈ node_dependencies g t) :
    s ∈ node_dependencies (graph_add_edge g e) t := by
  by_cases hs : (dictGet? g e.source).isSome
  · by_cases ht : (dictGet? g e.target).isSome
    · obtain ⟨te, hte⟩ := Option.isSome_iff_exists.mp ht
      obtain ⟨se, hse⟩ := Option.isSome_iff_exists.mp (isSome_source_in_g1 g e te hs hte)
      rw [graph_add_edge_eq g e te se hs hte hse]
      by_cases h1 : t = e.source
      · have hfin : dictGet? (dictInsert
            (dictInsert g e.target
              { te with dependencies := te.dependencies ++ [e.source] })
            e.source { se with dependents := se.dependents ++ [e.target] }) t =
              some { se with dependents := se.dependents ++ [e.target] } := by
          rw [h1]; exact dictGet?_dictInsert_self _ _ _
        rw [node_dependencies_of_get _ _ _ hfin]
        show s ∈ se.dependencies
        by_cases h2 : t = e.target
        · have hg1 : dictGet? (dictInsert g e.target
              { te with dependencies := te.dependencies ++ [e.source] }) e.source =
                some { te with dependencies := te.dependencies ++ [e.source] } := by
            rw [show e.source = e.target by rw [← h1, h2]]
            exact dictGet?_dictInsert_self _ _ _
          rw [hg1] at hse
          cases hse
          show s ∈ te.dependencies ++ [e.source]
          rw [node_dependencies_of_get g t te (by rw [h2]; exact hte)] at h
          exact List.mem_append_left _ h
        · have hst : e.source ≠ e.target := fun a => h2 (h1.trans a)
          have hg : dictGet? g e.source = some se := by
            rw [← dictGet?_dictInsert_ne g e.target e.source
              { te with dependencies := te.dependencies ++ [e.source] } hst]
            exact hse
          rw [show node_dependencies g t = se.dependencies by
            rw [h1]; exact node_dependencies_of_get g e.source se hg] at h
          exact h
      · have step1 : dictGet? (dictInsert
            (dictInsert g e.target
              { te with dependencies := te.dependencies ++ [e.source] })
            e.source { se with dependents := se.dependents ++ [e.target] }) t =
              dictGet? (dictInsert g e.target
                { te with dependencies := te.dependencies ++ [e.source] }) t :=
          dictGet?_dictInsert_ne _ _ _ _ h1
        by_cases h2 : t = e.target
        · have hfin : dictGet? (dictInsert g e.target
              { te with dependencies := te.dependencies ++ [e.source] }) t =
                some { te with dependencies := te.dependencies ++ [e.source] } := by
            rw [h2]; exact dictGet?_dictInsert_self _ _ _
          rw [node_dependencies_of_get _ _ _ (step1.trans hfin)]
          show s ∈ te.dependencies ++ [e.source]
          rw [node_dependencies_of_get g t te (by rw [h2]; exact hte)] at h
          exact List.mem_append_left _ h
        · have hfin : dictGet? (dictInsert g e.target
              { te with dependencies := te.dependencies ++ [e.source] }) t =
                dictGet? g t := dictGet?_dictInsert_ne _ _ _ _ h2
          show s ∈ node_dependencies _ t
          rw [node_dependencies, step1.trans hfin, ← node_dependencies]
          exact h
    · rw [graph_add_edge_skip g e (Or.inr (by simpa using ht))]; exact h
  · rw [graph_add_edge_skip g e (Or.inl (by simpa using hs))]; exact h

theorem graph_add_edge_self (g : List (String × GraphEntry)) (e : Edge)
    (hs : (dictGet? g e.source).isSome = true)
    (ht : (dictGet? g e.target).isSome = true) :
    e.source ∈ node_dependencies (graph_add_edge g e) e.target := by
  obtain ⟨te, hte⟩ := Option.isSome_iff_exists.mp ht
  obtain ⟨se, hse⟩ := Option.isSome_iff_exists.mp (isSome_source_in_g1 g e te hs hte)
  rw [graph_add_edge_eq g e te se hs hte hse]
  by_cases h1 : e.target = e.source
  · have hfin : dictGet? (dictInsert
        (dictInsert g e.target
          { te with dependencies := te.dependencies ++ [e.source] })
        e.source { se with dependents := se.dependents ++ [e.target] }) e.target =
          some { se with dependents := se.dependents ++ [e.target] } := by
      rw [h1]; exact dictGet?_dictInsert_self _ _ _
    rw [node_dependencies_of_get _ _ _ hfin]
    show e.source ∈ se.dependencies
    have hg1 : dictGet? (dictInsert g e.target
        { te with dependencies := te.dependencies ++ [e.source] }) e.source =
          some { te with dependencies := te.dependencies ++ [e.source] } := by
      rw [← h1]; exact dictGet?_dictInsert_self _ _ _
    rw [hg1] at hse
    cases hse
    show e.source ∈ te.dependencies ++ [e.source]
    exact List.mem_append_right _ (List.mem_singleton.mpr rfl)
  · have hfin : dictGet? (dictInsert
        (dictInsert g e.target
          { te with dependencies := te.dependencies ++ [e.source] })
        e.source { se with dependents := se.dependents ++ [e.target] }) e.target =
          some { te with dependencies := te.dependencies ++ [e.source] } := by
      rw [dictGet?_dictInsert_ne _ _ _ _ h1]
      exact dictGet?_dictInsert_self _ _ _
    rw [node_dependencies_of_get _ _ _ hfin]
    exact List.mem_append_right _ (List.mem_singleton.mpr rfl)

theorem mem_deps_foldl_edges (edges : List Edge) :
    ∀ (g : List (String × GraphEntry)) (s t : String),
      s ∈ node_dependencies g t →
      s ∈ node_dependencies (edges.foldl graph_add_edge g) t := by
  induction edges with
  | nil => intro g s t h; exact h
  | cons e rest ih =>
    intro g s t h
    exact ih _ s t (mem_deps_graph_add_edge g e s t h)

theorem dictKeys_foldl_edges (edges : List Edge) :
    ∀ g : List (String × GraphEntry),
      dictKeys (edges.foldl graph_add_edge g) = dictKeys g := by
  induction edges with
  | nil => intro g; rfl
  | cons e rest ih =>
    intro g
    rw [List.foldl_cons, ih, dictKeys_graph_add_edge]

theorem source_mem_deps_foldl (edges : List Edge) :
    ∀ (g : List (String × GraphEntry)) (e : Edge), e ∈ edges →
      (dictGet? g e.source).isSome → (dictGet? g e.target).isSome →
      e.source ∈ node_dependencies (edges.foldl graph_add_edge g) e.target := by
  induction edges with
  | nil => intro g e he; cases he
  | cons e0 rest ih =>
    intro g e he hs ht
    rcases List.mem_cons.mp he with rfl | he'
    · exact mem_deps_foldl_edges rest _ _ _ (graph_add_edge_self g e hs ht)
    · refine ih _ e he' ?_ ?_
      · rw [← mem_dictKeys_iff_isSome, dictKeys_graph_add_edge,
          mem_dictKeys_iff_isSome]
        exact hs
      · rw [← mem_dictKeys_iff_isSome, dictKeys_graph_add_edge,
          mem_dictKeys_iff_isSome]
        exact ht

theorem mem_dictKeys_graph_init (nodes : List Node) :
    ∀ (g : List (String × GraphEntry)) (x : String),
      x ∈ dictKeys (nodes.foldl (fun g n => dictInsert g n.id { node := n }) g) ↔
        x ∈ dictKeys g ∨ x ∈ nodes.map Node.id := by
  induction nodes with
  | nil => intro g x; simp
  | cons n rest ih =>
    intro g x
    rw [List.foldl_cons, ih]
    rw [mem_dictKeys_dictInsert]
    simp only [List.map_cons, List.mem_cons]
    tauto

/-- A declared edge shows up in the target's dependency list of the built
execution graph. -/
theorem source_mem_dependencies (nodes : List Node) (edges : List Edge) (e : Edge)
    (he : e ∈ edges) (hs : e.source ∈ nodes.map Node.id)
    (ht : e.target ∈ nodes.map Node.id) :
    e.source ∈ node_dependencies (build_execution_graph nodes edges) e.target := by
  unfold build_execution_graph
  refine source_mem_deps_foldl edges _ e he ?_ ?_
  · rw [← mem_dictKeys_iff_isSome, mem_dictKeys_graph_init]
    exact Or.inr hs
  · rw [← mem_dictKeys_iff_isSome, mem_dictKeys_graph_init]
    exact Or.inr ht

/-! ## Concrete fixtures -/

/-- Collaborators whose calls always succeed. -/
def okCollab : Collaborators :=
  { completion := fun a => .ok ("C[" ++ a.prompt ++ "]")
    retrieval := fun _ => .ok { documents := ["d1", "d2", "d3", "d4"] } }

/-- Collaborators whose retrieval call always raises. -/
def failRetrievalCollab : Collaborators :=
  { completion := fun a => .ok ("C[" ++ a.prompt ++ "]")
    retrieval := fun _ => .error "boom" }

def qNode : Node := { id := "q", type := some "user_query" }

def kNode : Node := { id := "k", type := some "knowledge_base" }

def oNode : Node := { id := "o", type := some "output" }

/-- Two user_query nodes and no output node (spec's end-to-end example). -/
def cfgTwoUserQuery : WorkflowConfig :=
  { nodes := [{ id := "q1", type := some "user_query" },
              { id := "q2", type := some "user_query" }] }

/-- A valid chain `q → k → o`, whose knowledge_base node fails when the
retrieval collaborator raises. -/
def cfgChainKB : WorkflowConfig :=
  { nodes := [qNode, kNode, oNode]
    edges := [{ source := "q", target := "k" }, { source := "k", target := "o" }] }

/-- A valid workflow whose output node depends on itself: the loop stalls. -/
def cfgSelfLoop : WorkflowConfig :=
  { nodes := [qNode, oNode], edges := [{ source := "o", target := "o" }] }

/-- A node whose only output marker is `data.type`, under a different
concrete top-level type. -/
def wsOutputNode : Node :=
  { id := "o", type := some "web_search", data := { type := some "output" } }

def cfgMarkerOnly : WorkflowConfig := { nodes := [qNode, wsOutputNode] }

/-- The web_search stub result for user input `"hi"`. -/
def wsStubResult : NodeResult :=
  { type := some "web_search"
    results := []
    query := some "hi"
    message := some "Web search integration coming soon" }

/-! ## Claims -/

/-- **C1.** When validation fails, `execute_workflow` raises the
`InvalidWorkflow` `ValueError` carrying the validation errors; the result is
the same for *every* choice of collaborators, so neither collaborator is ever
invoked, no node handler runs and no execution context is built. -/
theorem execute_workflow_invalid (C : Collaborators) (cfg : WorkflowConfig)
    (user_input : String) (session_id : Option String)
    (h : (validate_workflow cfg).valid = false) :
    execute_workflow C cfg user_input session_id =
      .error (invalid_workflow_message (validate_workflow cfg).errors) := by
  simp [execute_workflow, h]

/-- Witness for C1: the spec's end-to-end example — two user_query nodes and
zero output nodes. -/
theorem execute_workflow_invalid_witness :
    (validate_workflow cfgTwoUserQuery).valid = false ∧
      execute_workflow okCollab cfgTwoUserQuery "hello" none =
        .error (invalid_workflow_message (validate_workflow cfgTwoUserQuery).errors) :=
  ⟨by decide, execute_workflow_invalid okCollab cfgTwoUserQuery "hello" none (by decide)⟩

/-- **C8.** `validate` is deterministic and pure: its embedding is a function
of the configuration alone — the Python method reads no engine state and
mutates nothing — so two calls on the same config agree on the flag and on
both ordered lists. -/
theorem validate_workflow_deterministic (cfg cfg' : WorkflowConfig)
    (h : cfg = cfg') :
    (validate_workflow cfg).valid = (validate_workflow cfg').valid ∧
    (validate_workflow cfg).errors = (validate_workflow cfg').errors ∧
    (validate_workflow cfg).warnings = (validate_workflow cfg').warnings := by
  subst h; exact ⟨rfl, rfl, rfl⟩

/-- Witness for C8. -/
theorem validate_workflow_deterministic_witness :
    (validate_workflow cfgChainKB).valid = (validate_workflow cfgChainKB).valid ∧
    (validate_workflow cfgChainKB).errors = (validate_workflow cfgChainKB).errors ∧
    (validate_workflow cfgChainKB).warnings = (validate_workflow cfgChainKB).warnings :=
  validate_workflow_deterministic cfgChainKB cfgChainKB rfl

/-- **C9.** The wave loop terminates within `len(nodes)` iterations: running
it with any extra fuel beyond `len(nodes)` gives exactly the state
`execute_workflow` uses (each productive iteration strictly grows the
executed set, bounded by the node count; otherwise the loop breaks). -/
theorem exec_loop_terminates (C : Collaborators) (cfg : WorkflowConfig)
    (user_input : String) (session_id : Option String)
    (_hv : (validate_workflow cfg).valid = true) (extra : Nat) :
    exec_loop C cfg.nodes (build_execution_graph cfg.nodes cfg.edges)
        (cfg.nodes.length + extra)
        ([], initial_context user_input session_id) =
      final_state C cfg user_input session_id := by
  unfold final_state loop_state
  exact exec_loop_fuel_sufficient C cfg.nodes _ cfg.nodes.length _ extra
    (by simp)

/-- Witness for C9. -/
theorem exec_loop_terminates_witness :
    (validate_workflow cfgChainKB).valid = true ∧
      exec_loop okCollab cfgChainKB.nodes
          (build_execution_graph cfgChainKB.nodes cfgChainKB.edges)
          (cfgChainKB.nodes.length + 5)
          ([], initial_context "hi" none) =
        final_state okCollab cfgChainKB "hi" none :=
  ⟨by decide, exec_loop_terminates okCollab cfgChainKB "hi" none (by decide) 5⟩

/-- **C3 (amended).** Within one wave over nodes with distinct ids, every
node is marked executed whatever its outcome, and the value stored under its
id is its own outcome: the handler's result on success, and on failure the
record `{error: message}` — which carries *no* `type` tag.  A sibling's
failure changes neither. -/
theorem wave_failure_isolated (C : Collaborators) (ready : List Node)
    (st : List String × Context) (hnd : (ready.map Node.id).Nodup)
    (n : Node) (hn : n ∈ ready) :
    n.id ∈ (exec_wave C ready st).1 ∧
    dictGet? (exec_wave C ready st).2.results n.id =
      some (outcome_record C n st.2) ∧
    (∀ msg, execute_node C n st.2 = .error msg →
      outcome_record C n st.2 = { error := some msg }) := by
  refine ⟨(mem_exec_wave_fst C ready st n.id).mpr
      (Or.inr (List.mem_map_of_mem _ hn)),
    dictGet?_wave_fold_mem C st.2 ready st hnd n hn, ?_⟩
  intro msg hmsg
  simp [outcome_record, hmsg]

/-- Witness for the amended C3, on the wave `[q, k, o]` with a failing
retrieval collaborator. -/
theorem wave_failure_isolated_witness :
    ((cfgChainKB.nodes.map Node.id).Nodup ∧ kNode ∈ cfgChainKB.nodes) ∧
    (kNode.id ∈ (exec_wave failRetrievalCollab cfgChainKB.nodes
        ([], initial_context "hi" none)).1 ∧
      dictGet? (exec_wave failRetrievalCollab cfgChainKB.nodes
          ([], initial_context "hi" none)).2.results kNode.id =
        some (outcome_record failRetrievalCollab kNode (initial_context "hi" none)) ∧
      (∀ msg, execute_node failRetrievalCollab kNode (initial_context "hi" none) =
          .error msg →
        outcome_record failRetrievalCollab kNode (initial_context "hi" none) =
          { error := some msg })) :=
  ⟨⟨by decide, by decide⟩,
    wave_failure_isolated failRetrievalCollab cfgChainKB.nodes
      ([], initial_context "hi" none) (by decide) kNode (by decide)⟩

/-- **C3 counterexample.** The claim's stored record `{type: error, error:
message}` does not match the code: running `q → k → o` with a failing
retrieval stores `{error: "boom"}` under `"k"` — the `error` key is set but
there is **no** `type` key (`type` is absent, not `"error"`) — while later
waves still ran: `o`'s result exists, all 3 nodes executed, one error
counted. -/
theorem error_record_has_no_type_tag :
    (execute_workflow failRetrievalCollab cfgChainKB "hi" none).toOption.map
        (fun r => (dictGet? r.context.results "k",
          (dictGet? r.context.results "o").isSome,
          r.execution_summary.executed_nodes,
          r.execution_summary.errors)) =
      some (some { error := some "boom" }, true, 3, 1) ∧
    NodeResult.type { error := some "boom" } ≠ some "error" := by
  constructor
  · rfl
  · decide

/-- The required-User-Query check passes exactly when some node carries
either marker — no `"custom"` unwrapping. -/
theorem input_errors_eq_nil_iff (nodes : List Node) :
    input_errors nodes = [] ↔
      ∃ n ∈ nodes, n.type = some "user_query" ∨
        n.data.type = some "user_query" := by
  unfold input_errors
  cases hany : nodes.any isUserQueryNode with
  | false =>
    simp only [Bool.false_eq_true, if_false]
    have hall := List.any_eq_false.mp hany
    constructor
    · intro habs; cases habs
    · rintro ⟨n, hn, hm⟩
      exfalso
      apply hall n hn
      rcases hm with hm | hm <;> simp [isUserQueryNode, hm]
  | true =>
    simp only [if_true]
    obtain ⟨n, hn, hq⟩ := List.any_eq_true.mp hany
    simp only [isUserQueryNode, Bool.or_eq_true, beq_iff_eq] at hq
    exact ⟨fun _ => ⟨n, hn, hq⟩, fun _ => trivial⟩

/-- The required-Output check passes exactly when some node carries either
marker — no `"custom"` unwrapping. -/
theorem output_errors_eq_nil_iff (nodes : List Node) :
    output_errors nodes = [] ↔
      ∃ n ∈ nodes, n.type = some "output" ∨ n.data.type = some "output" := by
  unfold output_errors
  cases hany : nodes.any isOutputNode with
  | false =>
    simp only [Bool.false_eq_true, if_false]
    have hall := List.any_eq_false.mp hany
    constructor
    · intro habs; cases habs
    · rintro ⟨n, hn, hm⟩
      exfalso
      apply hall n hn
      rcases hm with hm | hm <;> simp [isOutputNode, hm]
  | true =>
    simp only [if_true]
    obtain ⟨n, hn, hq⟩ := List.any_eq_true.mp hany
    simp only [isOutputNode, Bool.or_eq_true, beq_iff_eq] at hq
    exact ⟨fun _ => ⟨n, hn, hq⟩, fun _ => trivial⟩

/-- **C10.** The validator's required-node detection checks both the
top-level type and `data.type` without the `"custom"` unwrapping used by
dispatch: a node counts as user_query (output) exactly when either marker
equals that kind.  Hence the config whose only output marker is `data.type`
on a node with concrete top-level type `"web_search"` passes validation, yet
execution dispatches that node under its top-level type (a `web_search` stub
result, not an `output` result). -/
theorem validator_marker_mismatch :
    (∀ nodes : List Node,
      (input_errors nodes = [] ↔
        ∃ n ∈ nodes, n.type = some "user_query" ∨
          n.data.type = some "user_query") ∧
      (output_errors nodes = [] ↔
        ∃ n ∈ nodes, n.type = some "output" ∨ n.data.type = some "output")) ∧
    (validate_workflow cfgMarkerOnly).valid = true ∧
    effective_type wsOutputNode = some "web_search" ∧
    (execute_workflow okCollab cfgMarkerOnly "hi" none).toOption.map
        (fun r => dictGet? r.context.results "o") = some (some wsStubResult) :=
  ⟨fun nodes => ⟨input_errors_eq_nil_iff nodes, output_errors_eq_nil_iff nodes⟩,
    by decide, by decide, by rfl⟩

/-! ## Validation characterization (C2) -/

theorem validate_valid_eq (cfg : WorkflowConfig) :
    (validate_workflow cfg).valid = (validate_workflow cfg).errors.isEmpty := rfl

theorem validate_errors_eq (cfg : WorkflowConfig) :
    (validate_workflow cfg).errors =
      empty_errors cfg.nodes ++ type_errors cfg.nodes ++ input_errors cfg.nodes ++
        output_errors cfg.nodes ++ edge_errors cfg.nodes cfg.edges := rfl

theorem empty_errors_ne_nil (nodes : List Node) :
    empty_errors nodes ≠ [] ↔ nodes = [] := by
  rcases nodes with _ | ⟨n, rest⟩ <;> simp [empty_errors]

theorem type_errors_ne_nil (nodes : List Node) :
    type_errors nodes ≠ [] ↔
      ∃ n ∈ nodes, isValidType (effective_type n) = false := by
  unfold type_errors
  rw [Ne, List.filterMap_eq_nil_iff]
  push_neg
  refine exists_congr fun n => and_congr_right fun _ => ?_
  by_cases h : isValidType (effective_type n) <;> simp [h]

theorem input_errors_ne_nil (nodes : List Node) :
    input_errors nodes ≠ [] ↔
      ∀ n ∈ nodes, ¬(n.type = some "user_query" ∨
        n.data.type = some "user_query") := by
  rw [Ne, input_errors_eq_nil_iff]
  simp only [not_exists, not_and]

theorem output_errors_ne_nil (nodes : List Node) :
    output_errors nodes ≠ [] ↔
      ∀ n ∈ nodes, ¬(n.type = some "output" ∨ n.data.type = some "output") := by
  rw [Ne, output_errors_eq_nil_iff]
  simp only [not_exists, not_and]

theorem edge_errors_ne_nil (nodes : List Node) (edges : List Edge) :
    edge_errors nodes edges ≠ [] ↔
      ∃ e ∈ edges, (nodes.map Node.id).contains e.source = false ∨
        (nodes.map Node.id).contains e.target = false := by
  unfold edge_errors
  rw [Ne, List.flatMap_eq_nil_iff]
  push_neg
  refine exists_congr fun e => and_congr_right fun _ => ?_
  cases hs : (nodes.map Node.id).contains e.source <;>
    cases ht : (nodes.map Node.id).contains e.target <;> simp

/-- **C2.** `validate` reports invalid exactly when: no nodes; some node's
effective type (after `"custom"` unwrapping) is outside the closed kind set;
no node carries a user_query marker; no node carries an output marker; or
some edge endpoint is not a declared node id.  The missing-User-Query /
missing-Output errors carry those names, and each bad-edge error names the
offending id. -/
theorem validate_invalid_iff (cfg : WorkflowConfig) :
    ((validate_workflow cfg).valid = false ↔
      (cfg.nodes = [] ∨
        (∃ n ∈ cfg.nodes, isValidType (effective_type n) = false) ∨
        (∀ n ∈ cfg.nodes, ¬(n.type = some "user_query" ∨
          n.data.type = some "user_query")) ∨
        (∀ n ∈ cfg.nodes, ¬(n.type = some "output" ∨
          n.data.type = some "output")) ∨
        (∃ e ∈ cfg.edges,
          (cfg.nodes.map Node.id).contains e.source = false ∨
          (cfg.nodes.map Node.id).contains e.target = false))) ∧
    ((∀ n ∈ cfg.nodes, ¬(n.type = some "user_query" ∨
        n.data.type = some "user_query")) →
      "Workflow must have at least one User Query node" ∈
        (validate_workflow cfg).errors) ∧
    ((∀ n ∈ cfg.nodes, ¬(n.type = some "output" ∨
        n.data.type = some "output")) →
      "Workflow must have at least one Output node" ∈
        (validate_workflow cfg).errors) ∧
    (∀ e ∈ cfg.edges, (cfg.nodes.map Node.id).contains e.source = false →
      ("Invalid edge source: " ++ e.source) ∈ (validate_workflow cfg).errors) ∧
    (∀ e ∈ cfg.edges, (cfg.nodes.map Node.id).contains e.target = false →
      ("Invalid edge target: " ++ e.target) ∈ (validate_workflow cfg).errors) := by
  have h1 := empty_errors_ne_nil cfg.nodes
  have h2 := type_errors_ne_nil cfg.nodes
  have h3 := input_errors_ne_nil cfg.nodes
  have h4 := output_errors_ne_nil cfg.nodes
  have h5 := edge_errors_ne_nil cfg.nodes cfg.edges
  refine ⟨?_, ?_, ?_, ?_, ?_⟩
  · constructor
    · intro hfalse
      have herr : empty_errors cfg.nodes ++ type_errors cfg.nodes ++
          input_errors cfg.nodes ++ output_errors cfg.nodes ++
          edge_errors cfg.nodes cfg.edges ≠ [] := by
        intro he
        rw [validate_valid_eq, validate_errors_eq, he] at hfalse
        simp at hfalse
      by_cases hA : empty_errors cfg.nodes = []
      case neg => exact Or.inl (h1.mp hA)
      by_cases hB : type_errors cfg.nodes = []
      case neg => exact Or.inr (Or.inl (h2.mp hB))
      by_cases hC : input_errors cfg.nodes = []
      case neg => exact Or.inr (Or.inr (Or.inl (h3.mp hC)))
      by_cases hD : output_errors cfg.nodes = []
      case neg => exact Or.inr (Or.inr (Or.inr (Or.inl (h4.mp hD))))
      by_cases hE : edge_errors cfg.nodes cfg.edges = []
      case neg => exact Or.inr (Or.inr (Or.inr (Or.inr (h5.mp hE))))
      exact absurd (by rw [hA, hB, hC, hD, hE]; rfl) herr
    · intro hdisj
      have herr : (validate_workflow cfg).errors ≠ [] := by
        rw [validate_errors_eq]
        intro he
        simp only [List.append_eq_nil] at he
        rcases hdisj with h | h | h | h | h
        · exact h1.mpr h he.1.1.1.1
        · exact h2.mpr h he.1.1.1.2
        · exact h3.mpr h he.1.1.2
        · exact h4.mpr h he.1.2
        · exact h5.mpr h he.2
      rw [validate_valid_eq]
      rcases hv : (validate_workflow cfg).errors with _ | _
      · exact absurd hv herr
      · rfl
  · intro h
    have hC : input_errors cfg.nodes =
        ["Workflow must have at least one User Query node"] := by
      unfold input_errors
      have hany : cfg.nodes.any isUserQueryNode = false := by
        rw [List.any_eq_false]
        intro n hn
        have := h n hn
        simp only [isUserQueryNode, Bool.or_eq_true, beq_iff_eq]
        exact this
      simp [hany]
    rw [validate_errors_eq]
    simp [hC]
  · intro h
    have hD : output_errors cfg.nodes =
        ["Workflow must have at least one Output node"] := by
      unfold output_errors
      have hany : cfg.nodes.any isOutputNode = false := by
        rw [List.any_eq_false]
        intro n hn
        have := h n hn
        simp only [isOutputNode, Bool.or_eq_true, beq_iff_eq]
        exact this
      simp [hany]
    rw [validate_errors_eq]
    simp [hD]
  · intro e he hc
    rw [validate_errors_eq]
    simp only [List.mem_append]
    refine Or.inr (List.mem_flatMap.mpr ⟨e, he, ?_⟩)
    cases hcs : (cfg.nodes.map Node.id).contains e.source with
    | true => rw [hcs] at hc; cases hc
    | false => simp
  · intro e he hc
    rw [validate_errors_eq]
    simp only [List.mem_append]
    refine Or.inr (List.mem_flatMap.mpr ⟨e, he, ?_⟩)
    cases hct : (cfg.nodes.map Node.id).contains e.target with
    | true => rw [hct] at hc; cases hc
    | false => simp

/-- A config with no nodes and a dangling edge. -/
def cfgNoNodes : WorkflowConfig :=
  { nodes := [], edges := [{ source := "a", target := "b" }] }

/-- Witness for C2 at a concrete invalid config. -/
theorem validate_invalid_iff_witness :
    (validate_workflow cfgNoNodes).valid = false ∧
    "Workflow must have at least one User Query node" ∈
      (validate_workflow cfgNoNodes).errors ∧
    "Workflow must have at least one Output node" ∈
      (validate_workflow cfgNoNodes).errors ∧
    ("Invalid edge source: " ++ "a") ∈ (validate_workflow cfgNoNodes).errors ∧
    ("Invalid edge target: " ++ "b") ∈ (validate_workflow cfgNoNodes).errors :=
  ⟨(validate_invalid_iff cfgNoNodes).1.mpr (Or.inl rfl),
   (validate_invalid_iff cfgNoNodes).2.1 (by simp [cfgNoNodes]),
   (validate_invalid_iff cfgNoNodes).2.2.1 (by simp [cfgNoNodes]),
   (validate_invalid_iff cfgNoNodes).2.2.2.1 { source := "a", target := "b" }
     (by simp [cfgNoNodes]) (by decide),
   (validate_invalid_iff cfgNoNodes).2.2.2.2 { source := "a", target := "b" }
     (by simp [cfgNoNodes]) (by decide)⟩

/-- **C4.** For every edge A→B between declared node ids: whenever B is ready
(so B's handler is about to run in the next wave), A is already in the
executed set — A ran in a strictly earlier wave — and the context handed to
that wave already holds a committed result under A's id, which no later wave
ever changes. -/
theorem dependency_ordering (C : Collaborators) (cfg : WorkflowConfig)
    (user_input : String) (session_id : Option String)
    (e : Edge) (he : e ∈ cfg.edges)
    (hs : e.source ∈ cfg.nodes.map Node.id)
    (ht : e.target ∈ cfg.nodes.map Node.id)
    (i : Nat) (B : Node)
    (hB : B ∈ ready_nodes cfg.nodes (build_execution_graph cfg.nodes cfg.edges)
      (loop_state C cfg user_input session_id i).1)
    (hBt : B.id = e.target) :
    e.source ∈ (loop_state C cfg user_input session_id i).1 ∧
    (dictGet? (loop_state C cfg user_input session_id i).2.results
      e.source).isSome = true ∧
    (∀ k, dictGet? (loop_state C cfg user_input session_id (i + k)).2.results
        e.source =
      dictGet? (loop_state C cfg user_input session_id i).2.results e.source) := by
  have hdep : e.source ∈
      node_dependencies (build_execution_graph cfg.nodes cfg.edges) e.target :=
    source_mem_dependencies cfg.nodes cfg.edges e he hs ht
  have hready := (mem_ready_nodes cfg.nodes
    (build_execution_graph cfg.nodes cfg.edges)
    (loop_state C cfg user_input session_id i).1 B).mp hB
  have hexec : e.source ∈ (loop_state C cfg user_input session_id i).1 :=
    hready.2.2 e.source (by rw [hBt]; exact hdep)
  have hinv := exec_loop_results_inv C cfg.nodes
    (build_execution_graph cfg.nodes cfg.edges) i
    ([], initial_context user_input session_id)
    (by intro x; simp [initial_context, dictGet?])
  refine ⟨hexec, (hinv e.source).mp hexec, ?_⟩
  intro k
  have hcomp : loop_state C cfg user_input session_id (i + k) =
      exec_loop C cfg.nodes (build_execution_graph cfg.nodes cfg.edges) k
        (loop_state C cfg user_input session_id i) := by
    unfold loop_state
    rw [Nat.add_comm]
    exact exec_loop_add C cfg.nodes _ k i _
  rw [hcomp]
  exact exec_loop_persist C cfg.nodes _ k _ e.source hexec

def edgeQK : Edge := { source := "q", target := "k" }

/-- Witness for C4: after one wave of the chain `q → k → o`, node `k` is
ready, `q` is executed and its result committed. -/
theorem dependency_ordering_witness :
    (edgeQK ∈ cfgChainKB.edges ∧
      edgeQK.source ∈ cfgChainKB.nodes.map Node.id ∧
      edgeQK.target ∈ cfgChainKB.nodes.map Node.id ∧
      kNode ∈ ready_nodes cfgChainKB.nodes
        (build_execution_graph cfgChainKB.nodes cfgChainKB.edges)
        (loop_state okCollab cfgChainKB "hi" none 1).1 ∧
      kNode.id = edgeQK.target) ∧
    (edgeQK.source ∈ (loop_state okCollab cfgChainKB "hi" none 1).1 ∧
      (dictGet? (loop_state okCollab cfgChainKB "hi" none 1).2.results
        edgeQK.source).isSome = true ∧
      (∀ k, dictGet? (loop_state okCollab cfgChainKB "hi" none (1 + k)).2.results
          edgeQK.source =
        dictGet? (loop_state okCollab cfgChainKB "hi" none 1).2.results
          edgeQK.source)) :=
  ⟨⟨by decide, by decide, by decide, by decide, by decide⟩,
   dependency_ordering okCollab cfgChainKB "hi" none edgeQK (by decide)
     (by decide) (by decide) 1 kNode (by decide) (by decide)⟩

theorem length_filterMap_eq_length_filter {α β : Type} (l : List α)
    (f : α → Option β) (p : α → Bool) (h : ∀ a ∈ l, (f a).isSome = p a) :
    (l.filterMap f).length = (l.filter p).length := by
  induction l with
  | nil => rfl
  | cons a rest ih =>
    have ha := h a (List.mem_cons_self _ _)
    have ih' := ih fun b hb => h b (List.mem_cons_of_mem _ hb)
    cases hf : f a with
    | none =>
      have hp : p a = false := by rw [← ha, hf]; rfl
      simp [List.filterMap_cons, hf, List.filter_cons, hp, ih']
    | some b =>
      have hp : p a = true := by rw [← ha, hf]; rfl
      simp [List.filterMap_cons, hf, List.filter_cons, hp, ih']

/-- The result record `execute_workflow` returns for a valid config. -/
def run_result (C : Collaborators) (cfg : WorkflowConfig) (user_input : String)
    (session_id : Option String) : ExecResult :=
  { output := (cfg.nodes.filter isOutputNode).filterMap
      (fun m => dictGet? (final_state C cfg user_input session_id).2.results m.id)
    context := (final_state C cfg user_input session_id).2
    execution_summary :=
      { total_nodes := cfg.nodes.length
        executed_nodes := (final_state C cfg user_input session_id).1.length
        errors := count_errors (final_state C cfg user_input session_id).2.results } }

/-- **C5.** When the loop stalls (some declared node is never executed),
`execute_workflow` still returns normally: the result context is the loop's
final context, every unexecuted node's id is absent from `results`, `output`
has exactly one entry per *executed* output node (unexecuted ones contribute
nothing), `executed_nodes` counts the executed ids, and it is strictly below
`total_nodes`. -/
theorem stall_silent_partial (C : Collaborators) (cfg : WorkflowConfig)
    (user_input : String) (session_id : Option String)
    (hv : (validate_workflow cfg).valid = true)
    (n : Node) (hn : n ∈ cfg.nodes)
    (hst : n.id ∉ (final_state C cfg user_input session_id).1) :
    ∃ res, execute_workflow C cfg user_input session_id = Except.ok res ∧
      res.context = (final_state C cfg user_input session_id).2 ∧
      (∀ m ∈ cfg.nodes, m.id ∉ (final_state C cfg user_input session_id).1 →
        dictGet? res.context.results m.id = none) ∧
      res.output.length = ((cfg.nodes.filter isOutputNode).filter
        (fun m => (final_state C cfg user_input session_id).1.contains m.id)).length ∧
      res.execution_summary.executed_nodes =
        (final_state C cfg user_input session_id).1.length ∧
      res.execution_summary.executed_nodes <
        res.execution_summary.total_nodes := by
  have hinv := exec_loop_results_inv C cfg.nodes
    (build_execution_graph cfg.nodes cfg.edges) cfg.nodes.length
    ([], initial_context user_input session_id)
    (by intro x; simp [initial_context, dictGet?])
  have hids := exec_loop_subset_ids C cfg.nodes
    (build_execution_graph cfg.nodes cfg.edges) cfg.nodes.length
    ([], initial_context user_input session_id) (by intro x hx; cases hx)
  have hnd := exec_loop_nodup C cfg.nodes
    (build_execution_graph cfg.nodes cfg.edges) cfg.nodes.length
    ([], initial_context user_input session_id) List.nodup_nil
  refine ⟨run_result C cfg user_input session_id,
    by simp [execute_workflow, run_result, hv], rfl, ?_, ?_, rfl, ?_⟩
  · intro m _ hnm
    have hno : ¬ (dictGet? (final_state C cfg user_input session_id).2.results
        m.id).isSome := fun hsome => hnm ((hinv m.id).mpr hsome)
    exact Option.not_isSome_iff_eq_none.mp hno
  · refine length_filterMap_eq_length_filter _ _ _ ?_
    intro m _
    cases hx : (dictGet? (final_state C cfg user_input session_id).2.results
        m.id).isSome with
    | true =>
      have hmem : m.id ∈ (final_state C cfg user_input session_id).1 :=
        (hinv m.id).mpr hx
      exact (List.elem_iff.mpr hmem).symm
    | false =>
      cases hc : (final_state C cfg user_input session_id).1.contains m.id with
      | true =>
        have hsome : (dictGet? (final_state C cfg user_input
            session_id).2.results m.id).isSome = true :=
          (hinv m.id).mp (List.elem_iff.mp hc)
        rw [hsome] at hx
        exact Bool.noConfusion hx
      | false => rfl
  · show (final_state C cfg user_input session_id).1.length < cfg.nodes.length
    have hcard : (final_state C cfg user_input session_id).1.toFinset.card =
        (final_state C cfg user_input session_id).1.length :=
      List.toFinset_card_of_nodup hnd
    have hsub : (final_state C cfg user_input session_id).1.toFinset ⊆
        (cfg.nodes.map Node.id).toFinset.erase n.id := by
      intro x hx
      rw [List.mem_toFinset] at hx
      refine Finset.mem_erase.mpr ⟨fun he => hst (he ▸ hx), ?_⟩
      rw [List.mem_toFinset]
      exact hids x hx
    have hle := Finset.card_le_card hsub
    have herase : ((cfg.nodes.map Node.id).toFinset.erase n.id).card =
        (cfg.nodes.map Node.id).toFinset.card - 1 :=
      Finset.card_erase_of_mem
        (List.mem_toFinset.mpr (List.mem_map_of_mem _ hn))
    have hpos : 0 < (cfg.nodes.map Node.id).toFinset.card :=
      Finset.card_pos.mpr ⟨n.id, List.mem_toFinset.mpr (List.mem_map_of_mem _ hn)⟩
    have hbound := List.toFinset_card_le (cfg.nodes.map Node.id)
    have hlenmap : (cfg.nodes.map Node.id).length = cfg.nodes.length :=
      List.length_map _ _
    omega

/-- Witness for C5 on the self-loop config: `q` runs, `o` never becomes
ready, the run still returns with 1 of 2 nodes executed. -/
theorem stall_silent_partial_witness :
    ((validate_workflow cfgSelfLoop).valid = true ∧ oNode ∈ cfgSelfLoop.nodes ∧
      oNode.id ∉ (final_state okCollab cfgSelfLoop "hi" none).1) ∧
    (∃ res, execute_workflow okCollab cfgSelfLoop "hi" none = Except.ok res ∧
      res.context = (final_state okCollab cfgSelfLoop "hi" none).2 ∧
      (∀ m ∈ cfgSelfLoop.nodes,
        m.id ∉ (final_state okCollab cfgSelfLoop "hi" none).1 →
        dictGet? res.context.results m.id = none) ∧
      res.output.length = ((cfgSelfLoop.nodes.filter isOutputNode).filter
        (fun m => (final_state okCollab cfgSelfLoop "hi" none).1.contains m.id)).length ∧
      res.execution_summary.executed_nodes =
        (final_state okCollab cfgSelfLoop "hi" none).1.length ∧
      res.execution_summary.executed_nodes <
        res.execution_summary.total_nodes) :=
  ⟨⟨by decide, by decide, by decide⟩,
   stall_silent_partial okCollab cfgSelfLoop "hi" none (by decide) oNode
     (by decide) (by decide)⟩

/-! ## Handler contracts (C6, C7) -/

/-- C6 spec-side prompt, following the claim's words: start from the user
input; if the first `knowledge_base`-typed result in results order has a
non-empty documents list, prepend a Context block with at most its first 3
document texts; then, when a (truthy) prompt template is configured, replace
every `\x7bquery\x7d` placeholder in it by the prompt built so far. -/
def spec_llm_prompt (node : Node) (ctx : Context) : String :=
  let base := ctx.user_input
  let withContext :=
    match (dictValues ctx.results).find? (fun r =>
      r.type == some "knowledge_base") with
    | some kb =>
      if kb.documents ≠ [] then
        "Context:\n" ++ String.intercalate "\n\n" (kb.documents.take 3) ++
          "\n\nQuestion: " ++ base
      else base
    | none => base
  if strTruthy node.data.config.prompt then
    (node.data.config.prompt.getD "").replace "{query}" withContext
  else withContext

/-- C6 spec-side provider rule: gemini exactly when the configured model name
contains the marker `"gemini"` (case-insensitively); the default provider
openai otherwise. -/
def spec_llm_provider (node : Node) : LLMProvider :=
  if strContains (node.data.config.model.getD "").toLower "gemini" then
    .gemini
  else .openai

/-- C6 spec-side: the full argument record handed to the completion
collaborator. -/
def spec_completion_args (node : Node) (ctx : Context) : CompletionArgs :=
  { prompt := spec_llm_prompt node ctx
    provider := spec_llm_provider node
    model := node.data.config.model
    system_prompt := node.data.config.systemPrompt
    api_key := node.data.config.apiKey }

theorem llm_prompt_eq_spec (node : Node) (ctx : Context) :
    llm_prompt node ctx = spec_llm_prompt node ctx := by
  simp only [llm_prompt, spec_llm_prompt]
  cases hf : (dictValues ctx.results).find? (fun r =>
      r.type == some "knowledge_base") with
  | none =>
    cases hp : node.data.config.prompt with
    | none => simp [strTruthy]
    | some p =>
      cases he : p.isEmpty <;> simp [strTruthy, he]
  | some kb =>
    cases hd : kb.documents.isEmpty with
    | true =>
      have hnil : kb.documents = [] := List.isEmpty_iff.mp hd
      cases hp : node.data.config.prompt with
      | none => simp [strTruthy, hnil]
      | some p =>
        cases he : p.isEmpty <;> simp [strTruthy, he, hnil]
    | false =>
      have hnnil : kb.documents ≠ [] := by
        intro h0
        rw [h0] at hd
        exact Bool.noConfusion hd
      cases hp : node.data.config.prompt with
      | none => simp [strTruthy, hnnil]
      | some p =>
        cases he : p.isEmpty <;> simp [strTruthy, he, hnnil]

theorem llm_provider_eq_spec (node : Node) :
    llm_provider_of node = spec_llm_provider node := rfl

theorem except_match_eq_map {ε α β : Type} (x : Except ε α) (f : α → β) :
    (match x with
      | .error e => .error e
      | .ok r => .ok (f r)) = Except.map f x := by
  cases x <;> rfl

/-- The `llm_response` result record built from the collaborator's answer. -/
def llm_response_of (node : Node) (response : String) : NodeResult :=
  { type := some "llm_response"
    content := some response
    model := node.data.config.model }

/-- **C6.** For every llm_engine node, the call made to the completion
collaborator carries exactly the spec-described prompt and provider (plus the
node-config model, system prompt and api key), and the handler's value is the
collaborator's answer tagged `llm_response` — or the collaborator's error. -/
theorem llm_engine_contract (C : Collaborators) (node : Node) (ctx : Context) :
    execute_llm_engine C node ctx =
      Except.map (llm_response_of node)
        (C.completion (spec_completion_args node ctx)) := by
  have hargs : spec_completion_args node ctx =
      { prompt := spec_llm_prompt node ctx
        provider := spec_llm_provider node
        model := node.data.config.model
        system_prompt := node.data.config.systemPrompt
        api_key := node.data.config.apiKey } := rfl
  simp only [execute_llm_engine, llm_prompt_eq_spec, llm_provider_eq_spec]
  rw [← hargs]
  cases hc : C.completion (spec_completion_args node ctx) with
  | error e => rfl
  | ok response => rfl

/-- C7 spec-side: the blank-line concatenation of the content of every
`llm_response`-typed result in results order, or the placeholder. -/
def spec_output_content (ctx : Context) : String :=
  let contents := (dictValues ctx.results).filterMap fun r =>
    if r.type = some "llm_response" then some (r.content.getD "") else none
  if contents = [] then "No output generated"
  else String.intercalate "\n\n" contents

/-- **C7.** The output handler never fails and returns exactly the
spec-described aggregation of `llm_response`-typed results. -/
theorem output_handler_contract (ctx : Context) :
    execute_output ctx =
      .ok { type := some "output", content := some (spec_output_content ctx) } := by
  unfold execute_output spec_output_content
  have hfm : ((dictValues ctx.results).filterMap fun r =>
        if r.type == some "llm_response" then some (r.content.getD "") else none) =
      ((dictValues ctx.results).filterMap fun r =>
        if r.type = some "llm_response" then some (r.content.getD "") else none) := by
    congr 1
    funext r
    by_cases h : r.type = some "llm_response" <;> simp [h]
  rw [hfm]
  by_cases he : ((dictValues ctx.results).filterMap fun r =>
      if r.type = some "llm_response" then some (r.content.getD "") else none) = [] <;>
    simp [he, List.isEmpty_iff]

end GenaiStack
